import Mathlib

/-!
Verification development for the `ifcqselect` Blender add-on
(`src/ifcqselectv100.py`).

The Python source is shallowly embedded below.  Text is modelled as
`List Char` (one IFC STEP declaration per line, without the trailing
newline, which none of the modelled operations observe).  Python regular
expressions used by the source are deterministic on their character
classes (every greedy class in them is followed by a character outside
the class), so each one is embedded as a straight-line matcher.
Numeric values are modelled as rationals: `float(...)` is embedded as
`parsePyFloat`, covering the sign/digits/fraction/exponent forms of
Python decimal float literals (IEEE-754 specials and underscore
separators are outside the modelled fragment; no claim depends on
them).  Python `dict` is modelled as an association list with
assign-in-place-or-append update, which preserves both lookup and
insertion-order semantics.
-/

namespace IfcQSelect

/-- Characters of a string literal. -/
def lc (s : String) : List Char := s.data

/-- The ASCII apostrophe, the string-quote character of STEP encoding. -/
def quoteC : Char := Char.ofNat 39

/-- ASCII whitespace recognized by Python `str.strip`. -/
def isWs (c : Char) : Bool :=
  c = ' ' || c = '\t' || c = '\n' || c = '\r' || c = Char.ofNat 11 || c = Char.ofNat 12

/-- Python `str.strip()`. -/
def stripWs (l : List Char) : List Char :=
  ((l.dropWhile isWs).reverse.dropWhile isWs).reverse

/-- Decimal digit test. -/
def isDigitC (c : Char) : Bool := '0' ≤ c && c ≤ '9'

/-- Uppercase ASCII letter, the class `[A-Z]`. -/
def isUpperAZ (c : Char) : Bool := 'A' ≤ c && c ≤ 'Z'

/-- ASCII word character, the class `[\w_]` restricted to ASCII. -/
def isWordC (c : Char) : Bool :=
  isDigitC c || isUpperAZ c || ('a' ≤ c && c ≤ 'z') || c = '_'

/-- Match a literal pattern at the head of the input and return the rest. -/
def consume (pat : List Char) (s : List Char) : Option (List Char) :=
  if pat.isPrefixOf s then some (s.drop pat.length) else none

/-- Python `pat in l`: substring containment. -/
def containsSub (pat : List Char) (l : List Char) : Bool :=
  l.tails.any (fun s => pat.isPrefixOf s)

/-- Digits of a natural number read from a nonempty digit list. -/
def natOf (l : List Char) : Nat :=
  l.foldl (fun n c => 10 * n + (c.toNat - 48)) 0

/-- Python `float(tok)` on decimal literals: optional sign, integer and/or
fraction digits, optional exponent.  Returns the exact rational value. -/
def parsePyFloat (tok : List Char) : Option ℚ :=
  let l := stripWs tok
  let (neg, l) :=
    match l with
    | '+' :: r => (false, r)
    | '-' :: r => (true, r)
    | r => (false, r)
  let intPart := l.takeWhile isDigitC
  let l1 := l.drop intPart.length
  let (fracPart, l2) :=
    match l1 with
    | '.' :: r => (r.takeWhile isDigitC, r.drop (r.takeWhile isDigitC).length)
    | r => ([], r)
  if intPart.isEmpty && fracPart.isEmpty then none
  else
    let mantNat : Nat := natOf intPart * 10 ^ fracPart.length + natOf fracPart
    let mant : Int := if neg then -(mantNat : Int) else (mantNat : Int)
    let den : Nat := 10 ^ fracPart.length
    match l2 with
    | [] => some (Rat.divInt mant den)
    | e :: r =>
      if e = 'e' || e = 'E' then
        let (eneg, r1) :=
          match r with
          | '+' :: r2 => (false, r2)
          | '-' :: r2 => (true, r2)
          | r2 => (false, r2)
        let eDigits := r1.takeWhile isDigitC
        if eDigits.isEmpty || !(r1.drop eDigits.length).isEmpty then none
        else
          let ex := natOf eDigits
          if eneg then some (Rat.divInt mant (den * 10 ^ ex))
          else some (Rat.divInt (mant * 10 ^ ex) den)
      else none

/-- Python `dict` assignment `d[k] = v`: replace in place if the key is
present, else append (insertion order preserved). -/
def dictSet {α : Type} (m : List (List Char × α)) (k : List Char) (v : α) :
    List (List Char × α) :=
  if m.any (fun p => p.1 = k) then
    m.map (fun p => if p.1 = k then (k, v) else p)
  else m ++ [(k, v)]

/-- Python `d.get(k)` / `d[k]`. -/
def dictGet {α : Type} (m : List (List Char × α)) (k : List Char) : Option α :=
  (m.find? (fun p => p.1 = k)).map Prod.snd

/-- Python `name.split(sep)[-1]`: the segment after the last separator. -/
def afterLastC (sep : Char) (l : List Char) : List Char :=
  (l.reverse.takeWhile (fun c => c ≠ sep)).reverse

/-- The region `l[l.find('(')+1 : l.rfind(')')]`: between the first `(`
and the last `)` of a line. -/
def argRegion (l : List Char) : List Char :=
  (((l.reverse.dropWhile (fun c => c ≠ ')')).drop 1).reverse.dropWhile (fun c => c ≠ '(')).drop 1

/-- A per-object quantity mapping, `name -> value`. -/
abbrev QMap := List (List Char × ℚ)

/-! ## Streaming quantity resolution (`pull_all_ifc_quantities_to_blender`,
lines 924-960): three filtered passes over the cached text. -/

/-- One line of the first pass: if the line contains both the
relationship keyword and the substring `(entity_ref)`, append the
cleaned final comma-part. -/
def relStep (eref : List Char) (acc : List (List Char)) (l : List Char) : List (List Char) :=
  if containsSub (lc (r"IFCRELDEFINESBYPROPERTIES")) l
      && containsSub ('(' :: (eref ++ [')'])) l then
    acc ++ [stripWs ((((l.splitOn ',').getLastD []).filter (fun c => c ≠ ')')).filter
      (fun c => c ≠ ';'))]
  else acc

/-- First pass: collect the final-argument refs of every
`IFCRELDEFINESBYPROPERTIES` line that contains the substring
`(entity_ref)`. -/
def relPass (lines : List (List Char)) (eref : List Char) : List (List Char) :=
  lines.foldl (relStep eref) []

/-- One line of the second pass: an `IFCELEMENTQUANTITY`/`IFCPROPERTYSET`
line whose ref is in `rels` records the `#`-prefixed tokens of the raw
comma-split of its full argument region. -/
def qsetStep (rels : List (List Char)) (acc : List (List Char × List (List Char)))
    (l : List Char) : List (List Char × List (List Char)) :=
  if containsSub (lc (r"IFCELEMENTQUANTITY")) l || containsSub (lc (r"IFCPROPERTYSET")) l then
    let sref := stripWs (l.takeWhile (fun c => c ≠ '='))
    if rels.contains sref then
      if l.contains '(' && l.contains ')' then
        let refs := ((argRegion l).splitOn ',').map stripWs
          |>.filter (fun r₀ => r₀.head? = some '#')
        dictSet acc sref refs
      else acc
    else acc
  else acc

/-- Second pass over all lines. -/
def qsetPass (lines : List (List Char)) (rels : List (List Char)) :
    List (List Char × List (List Char)) :=
  lines.foldl (qsetStep rels) []

/-- The anchored pattern
`#\d+=IFCQUANTITY\w+\('([^']+)'[,$][^,]*,[^,]*,([^,]+)` of the third
pass; returns the captured quantity name. -/
def qtyNameMatch (l : List Char) : Option (List Char) :=
  match consume ['#'] l with
  | none => none
  | some s =>
  let ds := s.takeWhile isDigitC
  if ds.isEmpty then none else
  match consume (lc (r"=IFCQUANTITY")) (s.drop ds.length) with
  | none => none
  | some s =>
  let ws := s.takeWhile isWordC
  if ws.isEmpty then none else
  match consume ['(', quoteC] (s.drop ws.length) with
  | none => none
  | some s =>
  let qname := s.takeWhile (fun c => c ≠ quoteC)
  if qname.isEmpty then none else
  match consume [quoteC] (s.drop qname.length) with
  | none => none
  | some s =>
  match s with
  | [] => none
  | c :: s =>
  if c = ',' || c = '$' then
    let a := s.takeWhile (fun c => c ≠ ',')
    match consume [','] (s.drop a.length) with
    | none => none
    | some s =>
    let b := s.takeWhile (fun c => c ≠ ',')
    match consume [','] (s.drop b.length) with
    | none => none
    | some s =>
    if (s.takeWhile (fun c => c ≠ ',')).isEmpty then none else some qname
  else none

/-- Cleaning applied to the value token:
`.replace(')','').replace(';','').replace('$','').strip()`. -/
def cleanTok (t : List Char) : List Char :=
  stripWs (((t.filter (fun c => c ≠ ')')).filter (fun c => c ≠ ';')).filter (fun c => c ≠ '$'))

/-- One line of the third pass: an `IFCQUANTITY` line whose ref is in
`allq` records `name -> value` when the anchored pattern matches and the
fourth comma-part parses as a float (dict assignment, last write
wins). -/
def qtyStep (allq : List (List Char)) (m : QMap) (l : List Char) : QMap :=
  if containsSub (lc (r"IFCQUANTITY")) l then
    let qref := stripWs (l.takeWhile (fun c => c ≠ '='))
    if allq.contains qref then
      match qtyNameMatch l with
      | some qname =>
        let parts := l.splitOn ','
        if parts.length > 3 then
          match parsePyFloat (cleanTok (parts.getD 3 [])) with
          | some v => dictSet m qname v
          | none => m
        else m
      | none => m
    else m
  else m

/-- Third pass over all lines. -/
def qtyPass (lines : List (List Char)) (allq : List (List Char)) : QMap :=
  lines.foldl (qtyStep allq) []

/-- The streaming quantity resolution: the three passes chained, as in
`pull_all_ifc_quantities_to_blender`. -/
def pullQuantities (lines : List (List Char)) (eref : List Char) : QMap :=
  let rels := relPass lines eref
  let qsets := qsetPass lines rels
  let allq := (qsets.map Prod.snd).flatten
  qtyPass lines allq

/-! ## Element matching (`find_ifc_line_by_guid`, `find_ifc_line_by_name`,
`match_ifc_element`, lines 862-907). -/

/-- The literal front of the GUID search pattern:
`IFCSLAB('<guid>',$,'`. -/
def guidPat (g : List Char) : List Char :=
  lc (r"IFCSLAB(") ++ quoteC :: (g ++ quoteC :: lc (r",$,")) ++ [quoteC]

/-- The search pattern of `find_ifc_line_by_guid` tried at one position:
`IFCSLAB\('<guid>',\$,'([^']+)'`. -/
def guidHitAt (guid : List Char) (s : List Char) : Bool :=
  match consume (guidPat guid) s with
  | none => false
  | some t =>
    let lbl := t.takeWhile (fun c => c ≠ quoteC)
    !lbl.isEmpty && decide ((t.drop lbl.length).head? = some quoteC)

/-- Python `pattern.search` for the GUID pattern: a hit at any position. -/
def guidHit (guid : List Char) (l : List Char) : Bool :=
  l.tails.any (fun s => guidHitAt guid s)

/-- Function `find_ifc_line_by_guid`: first line where the pattern hits. -/
def findLineByGuid (lines : List (List Char)) (guid : List Char) : Option (List Char) :=
  lines.find? (fun l => guidHit guid l)

/-- Name normalization of `find_ifc_line_by_name`: part after the last
slash when one is present. -/
def normName (n : List Char) : List Char :=
  if n.contains '/' then afterLastC '/' n else n

/-- The search pattern of `find_ifc_line_by_name` tried at one position:
`IFC[A-Z]+\('([^']+)',\$,'<name>'`. -/
def nameHitAt (nm : List Char) (s : List Char) : Bool :=
  match consume (lc (r"IFC")) s with
  | none => false
  | some t =>
    let ups := t.takeWhile isUpperAZ
    if ups.isEmpty then false else
    match consume ['(', quoteC] (t.drop ups.length) with
    | none => false
    | some t2 =>
      let gid := t2.takeWhile (fun c => c ≠ quoteC)
      !gid.isEmpty &&
        (quoteC :: ',' :: '$' :: ',' :: quoteC :: (nm ++ [quoteC])).isPrefixOf (t2.drop gid.length)

/-- Python `pattern.search` for the name pattern: a hit at any position. -/
def nameHit (nm : List Char) (l : List Char) : Bool :=
  l.tails.any (fun s => nameHitAt nm s)

/-- Function `find_ifc_line_by_name`: normalize, then first line where the
pattern hits. -/
def findLineByName (lines : List (List Char)) (name : List Char) : Option (List Char) :=
  lines.find? (fun l => nameHit (normName name) l)

/-- The external scene object: its name, the three optional GUID-bearing
fields probed by `match_ifc_element` (custom property and attribute
access collapse to one field per logical name), and the
`obj["BIMProperties"]` store. -/
structure BObj where
  name : List Char
  ifcGuid : Option (List Char)
  globalId : Option (List Char)
  globalid : Option (List Char)
  bim : QMap
deriving DecidableEq

/-- Python `a or b` on optional strings (`None` and the empty string are
falsy). -/
def pyOr (a b : Option (List Char)) : Option (List Char) :=
  match a with
  | some s => if s.isEmpty then b else some s
  | none => b

/-- The GUID probe chain of `match_ifc_element`. -/
def getGuid (o : BObj) : Option (List Char) :=
  pyOr o.ifcGuid (pyOr o.globalId o.globalid)

/-- The matching strategy of `match_ifc_element` over the cached lines:
name match is primary, GUID match is the fallback (cross-check warnings
are prints and carry no data). -/
def matchCore (objName : List Char) (guid : Option (List Char))
    (lines : List (List Char)) : Option (List Char) :=
  let name : Option (List Char) :=
    if objName.isEmpty then none else some (afterLastC '/' objName)
  let line1 : Option (List Char) :=
    match name with
    | some n => if n.isEmpty then none else findLineByName lines n
    | none => none
  match line1 with
  | some l => some l
  | none =>
    match guid with
    | some g => if g.isEmpty then none else findLineByGuid lines g
    | none => none

/-- Function `match_ifc_element` applied to a scene object. -/
def matchIfcElement (o : BObj) (lines : List (List Char)) : Option (List Char) :=
  matchCore o.name (getGuid o) lines

/-! ## Cache manager (`get_ifc_txt_cache_path`, `ensure_ifc_txt_cache`,
lines 848-859) over an abstract file-system state. -/

/-- Python `os.path.basename` (POSIX): the part after the last `/`. -/
def basenameP (p : List Char) : List Char := afterLastC '/' p

/-- Python `os.path.splitext(...)[0]` on a basename: drop the extension at the
last dot, except when every character before that dot is itself a dot. -/
def stemOf (b : List Char) : List Char :=
  if b.contains '.' then
    let pre := ((b.reverse.dropWhile (fun c => c ≠ '.')).drop 1).reverse
    if pre.any (fun c => c ≠ '.') then pre else b
  else b

/-- The fixed cache directory `~/.cache/ifcqselect/` (`os.path.expanduser`
replaces `~` by the user home; a fixed prefix for every call). -/
def cacheDir : List Char := lc (r"~/.cache/ifcqselect/")

/-- Function `get_ifc_txt_cache_path`: cache dir joined with the source basename,
extension replaced by `.txt` (`os.makedirs` touches no files). -/
def getIfcTxtCachePath (p : List Char) : List Char :=
  cacheDir ++ stemOf (basenameP p) ++ lc (r".txt")

/-- Content and modification time of one file (`shutil.copy2` preserves
both). -/
structure FileData where
  content : List (List Char)
  mtime : Nat
deriving DecidableEq

/-- A file-system snapshot: a path-indexed store. -/
abbrev FileSys := List (List Char × FileData)

/-- Function `ensure_ifc_txt_cache`: copy source to cache when the cache is absent
or strictly older, else return the cached path unchanged.  `none` models
the error raised when the source itself is missing; the flag reports
whether a copy was performed. -/
def ensureIfcTxtCache (fs : FileSys) (p : List Char) :
    Option (FileSys × List Char × Bool) :=
  match dictGet fs p with
  | none => none
  | some sd =>
    let txt := getIfcTxtCachePath p
    match dictGet fs txt with
    | none => some (dictSet fs txt sd, txt, true)
    | some cd =>
      if cd.mtime < sd.mtime then some (dictSet fs txt sd, txt, true)
      else some (fs, txt, false)

/-! ## The per-object quantity pull (`pull_all_ifc_quantities_to_blender`,
lines 910-964). -/

/-- Failure message for a missing path or file. -/
def msgNoFile : List Char := lc (r"No IFC file path set or file does not exist.")

/-- Failure message when no element line matches. -/
def msgNoMatch : List Char :=
  lc (r"No matching IFC element found for this object (by name or GUID) in .txt cache.")

/-- Failure message when the entity reference cannot be extracted. -/
def msgNoRef : List Char := lc (r"Could not extract entity reference.")

/-- Failure message when resolution produced no quantities. -/
def msgNoQty : List Char := lc (r"No IFC quantities found for this object.")

/-- Success message, including the number of copied properties. -/
def msgCopied (n : Nat) : List Char :=
  lc (r"Copied ") ++ Nat.toDigits 10 n ++ lc (r" IFC properties to BIMProperties (from .txt cache).")

/-- Everything the pull does before touching the object: validate the
path, refresh the cache, match the element, extract its entity ref, and
resolve quantities.  `Except` separates the four failure returns from
the success return; no branch reads the object's property store. -/
def pullCore (objName : List Char) (guid : Option (List Char)) (fs : FileSys)
    (ifcPath : Option (List Char)) :
    Except (List Char × FileSys) (List Char × QMap × FileSys) :=
  match ifcPath with
  | none => .error (msgNoFile, fs)
  | some p =>
    if p.isEmpty then .error (msgNoFile, fs) else
    match dictGet fs p with
    | none => .error (msgNoFile, fs)
    | some _ =>
      match ensureIfcTxtCache fs p with
      | none => .error (msgNoFile, fs)
      | some (fs1, txt, _) =>
        let lines := ((dictGet fs1 txt).map FileData.content).getD []
        match matchCore objName guid lines with
        | none => .error (msgNoMatch, fs1)
        | some line =>
          let erefOpt : Option (List Char) :=
            if line.contains '=' then some (stripWs (line.takeWhile (fun c => c ≠ '=')))
            else none
          match erefOpt with
          | none => .error (msgNoRef, fs1)
          | some eref =>
            if eref.isEmpty then .error (msgNoRef, fs1) else
            let q := pullQuantities lines eref
            if q.isEmpty then .error (msgNoQty, fs1)
            else .ok (msgCopied q.length, q, fs1)

/-- Function `pull_all_ifc_quantities_to_blender`: on success the resolved mapping
is assigned wholesale to `obj["BIMProperties"]`; on failure the object is
returned untouched. -/
def pullAll (o : BObj) (fs : FileSys) (ifcPath : Option (List Char)) :
    Bool × List Char × BObj × FileSys :=
  match pullCore o.name (getGuid o) fs ifcPath with
  | .error (m, fs1) => (false, m, o, fs1)
  | .ok (m, q, fs1) => (true, m, { o with bim := q }, fs1)

/-! ## Full-index parsing (`parse_ifc_entities_and_quantities`,
lines 266-305) and the GlobalId-based lookup of `get_bim_value`
(lines 458-467).

The four anchored regexes of the parser recognize prefixes that are
pairwise incompatible (`=IFCSLAB(`, `=IFCELEMENTQUANTITY(`,
`=IFCQUANTITY(AREA|VOLUME)`, `=IFCRELDEFINESBYPROPERTIES(` after the
leading `#digits`), so trying them in sequence on each line is faithful
to the source, which tests all four. -/

/-- A record of the full-index `quantities` dict: either a quantity-set
header (no name/value fields) or a parsed quantity. -/
inductive FIQ where
  | qsetRec (qsetName : List Char)
  | qtyRec (qtype : List Char) (name : List Char) (value : ℚ)
deriving DecidableEq

/-- The four maps built by `parse_ifc_entities_and_quantities`. -/
structure FIState where
  entities : List (List Char × (List Char × List Char))
  relsIdx : List (List Char × List Char)
  qtysIdx : List (List Char × FIQ)
  gidIdx : List (List Char × List Char)
deriving DecidableEq

/-- The empty index. -/
def fiInit : FIState := ⟨[], [], [], []⟩

/-- Anchored pattern `#(\d+)=IFCSLAB\('([^']+)',\$,'([\w_]+)'`. -/
def slabMatchFI (l : List Char) : Option (List Char × List Char × List Char) :=
  match consume ['#'] l with
  | none => none
  | some s =>
  let ds := s.takeWhile isDigitC
  if ds.isEmpty then none else
  match consume (lc (r"=IFCSLAB(") ++ [quoteC]) (s.drop ds.length) with
  | none => none
  | some s =>
  let gid := s.takeWhile (fun c => c ≠ quoteC)
  if gid.isEmpty then none else
  match consume (quoteC :: ',' :: '$' :: ',' :: [quoteC]) (s.drop gid.length) with
  | none => none
  | some s =>
  let nm := s.takeWhile isWordC
  if nm.isEmpty then none else
  if (s.drop nm.length).head? = some quoteC then some (ds, gid, nm) else none

/-- Anchored pattern `#(\d+)=IFCELEMENTQUANTITY\([^,]+,[^,]+,'([\w_]+)'`. -/
def eqMatchFI (l : List Char) : Option (List Char × List Char) :=
  match consume ['#'] l with
  | none => none
  | some s =>
  let ds := s.takeWhile isDigitC
  if ds.isEmpty then none else
  match consume (lc (r"=IFCELEMENTQUANTITY(")) (s.drop ds.length) with
  | none => none
  | some s =>
  let a1 := s.takeWhile (fun c => c ≠ ',')
  if a1.isEmpty then none else
  match consume [','] (s.drop a1.length) with
  | none => none
  | some s =>
  let a2 := s.takeWhile (fun c => c ≠ ',')
  if a2.isEmpty then none else
  match consume [','] (s.drop a2.length) with
  | none => none
  | some s =>
  match consume [quoteC] s with
  | none => none
  | some s =>
  let nm := s.takeWhile isWordC
  if nm.isEmpty then none else
  if (s.drop nm.length).head? = some quoteC then some (ds, nm) else none

/-- The value character class `[\d\.Ee\+-]` of the quantity regex. -/
def isValC (c : Char) : Bool :=
  isDigitC c || c = '.' || c = 'E' || c = 'e' || c = '+' || c = '-'

/-- Anchored pattern
`#(\d+)=IFCQUANTITY(AREA|VOLUME)\('([\w_]+)',\$\$,([\d\.Ee\+-]+),`. -/
def qtyMatchFI (l : List Char) : Option (List Char × List Char × List Char × List Char) :=
  match consume ['#'] l with
  | none => none
  | some s =>
  let ds := s.takeWhile isDigitC
  if ds.isEmpty then none else
  match consume (lc (r"=IFCQUANTITY")) (s.drop ds.length) with
  | none => none
  | some s =>
  let qt : Option (List Char × List Char) :=
    match consume (lc (r"AREA")) s with
    | some s2 => some (lc (r"AREA"), s2)
    | none =>
      match consume (lc (r"VOLUME")) s with
      | some s2 => some (lc (r"VOLUME"), s2)
      | none => none
  match qt with
  | none => none
  | some (qtype, s) =>
  match consume ['(', quoteC] s with
  | none => none
  | some s =>
  let nm := s.takeWhile isWordC
  if nm.isEmpty then none else
  match consume (quoteC :: ',' :: '$' :: '$' :: [',']) (s.drop nm.length) with
  | none => none
  | some s =>
  let v := s.takeWhile isValC
  if v.isEmpty then none else
  if (s.drop v.length).head? = some ',' then some (ds, qtype, nm, v) else none

/-- The subject-tuple character class `[\d,]` of the relationship regex. -/
def isRefC (c : Char) : Bool := isDigitC c || c = ','

/-- Anchored pattern
`#(\d+)=IFCRELDEFINESBYPROPERTIES\([^,]+,[^,]+,[^,]+,[^,]+,\((#[\d,]+)\),#(\d+)\);`
returning the rel id, the split-and-stripped subject ids, and the target
id. -/
def relMatchFI (l : List Char) : Option (List Char × List (List Char) × List Char) :=
  match consume ['#'] l with
  | none => none
  | some s =>
  let rid := s.takeWhile isDigitC
  if rid.isEmpty then none else
  match consume (lc (r"=IFCRELDEFINESBYPROPERTIES(")) (s.drop rid.length) with
  | none => none
  | some s =>
  let a1 := s.takeWhile (fun c => c ≠ ',')
  if a1.isEmpty then none else
  match consume [','] (s.drop a1.length) with
  | none => none
  | some s =>
  let a2 := s.takeWhile (fun c => c ≠ ',')
  if a2.isEmpty then none else
  match consume [','] (s.drop a2.length) with
  | none => none
  | some s =>
  let a3 := s.takeWhile (fun c => c ≠ ',')
  if a3.isEmpty then none else
  match consume [','] (s.drop a3.length) with
  | none => none
  | some s =>
  let a4 := s.takeWhile (fun c => c ≠ ',')
  if a4.isEmpty then none else
  match consume [','] (s.drop a4.length) with
  | none => none
  | some s =>
  match consume ['(', '#'] s with
  | none => none
  | some s =>
  let run := s.takeWhile isRefC
  if run.isEmpty then none else
  match consume [')', ','] (s.drop run.length) with
  | none => none
  | some s =>
  match consume ['#'] s with
  | none => none
  | some s =>
  let qid := s.takeWhile isDigitC
  if qid.isEmpty then none else
  match consume [')', ';'] (s.drop qid.length) with
  | none => none
  | some _ =>
    let entIds := (('#' :: run).splitOn ',').map (fun t => t.filter (fun c => c ≠ '#'))
    some (rid, entIds, qid)

/-- Function `parse_ifc_entities_and_quantities`: one pass over the lines.  A
quantity line whose value token fails `float` raises inside the loop;
the surrounding `try` catches it and the maps built so far are returned,
the remaining lines unprocessed. -/
def parseIfcFI : List (List Char) → FIState → FIState
  | [], st => st
  | l :: rest, st =>
    match slabMatchFI l with
    | some (eid, gid, nm) =>
      parseIfcFI rest { st with entities := dictSet st.entities eid (gid, nm),
                                gidIdx := dictSet st.gidIdx gid eid }
    | none =>
    match eqMatchFI l with
    | some (qid, qsnm) =>
      parseIfcFI rest { st with qtysIdx := dictSet st.qtysIdx qid (.qsetRec qsnm) }
    | none =>
    match qtyMatchFI l with
    | some (qid, qtype, nm, vtok) =>
      match parsePyFloat vtok with
      | some v =>
        parseIfcFI rest { st with qtysIdx := dictSet st.qtysIdx qid (.qtyRec qtype nm v) }
      | none => st
    | none =>
    match relMatchFI l with
    | some (_, entIds, qid) =>
      parseIfcFI rest { st with relsIdx := entIds.foldl (fun a e => dictSet a e qid) st.relsIdx }
    | none => parseIfcFI rest st

/-- Parameter normalization used by `get_bim_value`:
`.replace('_','').replace(' ','').lower()`. -/
def normalizeQName (n : List Char) : List Char :=
  ((n.filter (fun c => c ≠ '_')).filter (fun c => c ≠ ' ')).map Char.toLower

/-- Scanner state machine behind `findRefNums`: `acc = some ds` when a
`#` has been consumed and `ds` holds the digits read so far (reversed);
a completed nonempty digit run is emitted and scanning resumes at the
terminating character, exactly the non-overlapping left-to-right scan of
`re.findall`. -/
def findRefNumsAux : List Char → Option (List Char) → List (List Char)
  | [], none => []
  | [], some acc => if acc.isEmpty then [] else [acc.reverse]
  | c :: rest, none =>
    if c = '#' then findRefNumsAux rest (some []) else findRefNumsAux rest none
  | c :: rest, some acc =>
    if isDigitC c then findRefNumsAux rest (some (c :: acc))
    else if acc.isEmpty then
      if c = '#' then findRefNumsAux rest (some []) else findRefNumsAux rest none
    else
      acc.reverse ::
        (if c = '#' then findRefNumsAux rest (some []) else findRefNumsAux rest none)

/-- Python `re.findall(r"#(\d+)", s)`: the digit runs following each `#`,
scanned left to right without overlap. -/
def findRefNums (s : List Char) : List (List Char) :=
  findRefNumsAux s none

/-- The quantity loop inside `get_bim_value`: the first record whose
normalized name equals the parameter ends the loop, yielding that
record's value field (absent on a set header). -/
def fiLookupLoop (qtys : List (List Char × FIQ)) (param : List Char) :
    List (List Char) → Option (Option ℚ)
  | [] => none
  | r :: rs =>
    match dictGet qtys r with
    | some (.qtyRec _ nm v) =>
      if normalizeQName nm = param then some (some v) else fiLookupLoop qtys param rs
    | some (.qsetRec _) =>
      if normalizeQName [] = param then some none else fiLookupLoop qtys param rs
    | none => fiLookupLoop qtys param rs

/-- The GlobalId-based, file-derived lookup of `get_bim_value`: GlobalId
to entity id, entity id to relationship target, then the scan of
`re.findall(r"#(\d+)", qid)` over the quantities map.  (The later
`BIMProperties` and geometry fallbacks read the external object store,
not the parsed file.) -/
def fiGetValue (lines : List (List Char)) (gid : List Char) (param : List Char) : Option ℚ :=
  let st := parseIfcFI lines fiInit
  match dictGet st.gidIdx gid with
  | none => none
  | some eid =>
    match dictGet st.relsIdx eid with
    | none => none
    | some qid =>
      match fiLookupLoop st.qtysIdx param (findRefNums qid) with
      | some r => r
      | none => none

/-! ## Concrete inputs used by the claim theorems. -/

/-- A quoted STEP string token `'text'`. -/
def qs (s : String) : List Char := quoteC :: s.data ++ [quoteC]

/-- Element line `#1=IFCSLAB('G1',$,'Slab01',$);`. -/
def exSlabLine : List Char :=
  lc (r"#1=IFCSLAB(") ++ qs (r"G1") ++ lc (r",$,") ++ qs (r"Slab01") ++ lc (r",$);")

/-- Relationship line with singleton subject `#1` and target `#200`. -/
def exRelLine : List Char :=
  lc (r"#300=IFCRELDEFINESBYPROPERTIES(") ++ qs (r"r1") ++ lc (r",$,$,$,(#1),#200);")

/-- Quantity-set line `#200` with member tuple `(#9,#10,#11)`. -/
def exQsetLine : List Char :=
  lc (r"#200=IFCELEMENTQUANTITY(") ++ qs (r"q0") ++ lc (r",$,") ++ qs (r"BaseQ") ++
    lc (r",$,$,(#9,#10,#11));")

/-- Quantity `#9`, name `GrossArea`, value `15.0`. -/
def exQ9Line : List Char :=
  lc (r"#9=IFCQUANTITYAREA(") ++ qs (r"GrossArea") ++ lc (r",$,$,15.0,$);")

/-- Quantity `#10`, name `NetArea`, value `12.5`. -/
def exQ10Line : List Char :=
  lc (r"#10=IFCQUANTITYAREA(") ++ qs (r"NetArea") ++ lc (r",$,$,12.5,$);")

/-- Quantity `#11`, name `NetVolume`, value `2.0`. -/
def exQ11Line : List Char :=
  lc (r"#11=IFCQUANTITYVOLUME(") ++ qs (r"NetVolume") ++ lc (r",$,$,2.0,$);")

/-- A well-formed file: element, relationship, quantity set, three
quantities. -/
def exLines : List (List Char) :=
  [exSlabLine, exRelLine, exQsetLine, exQ9Line, exQ10Line, exQ11Line]

example : pullQuantities exLines (lc (r"#1")) = [(lc (r"NetArea"), Rat.divInt 25 2)] := by
  decide

example : fiGetValue exLines (lc (r"G1")) (lc (r"netarea")) = none := by decide

example : fiGetValue exLines (lc (r"G1")) (lc (r"grossarea")) = none := by decide

/-- The resolution-chain example of the spec: one relationship with `E1`
as the only subject, whose target set `QS1` has exactly the two members
`Q1 = ('NetArea', 12.5)` and `Q2 = ('GrossArea', 15.0)`. -/
def specChainLines : List (List Char) :=
  [exSlabLine,
   exRelLine,
   lc (r"#200=IFCELEMENTQUANTITY(") ++ qs (r"q0") ++ lc (r",$,") ++ qs (r"QS1") ++
     lc (r",$,$,(#10,#11));"),
   exQ10Line,
   lc (r"#11=IFCQUANTITYAREA(") ++ qs (r"GrossArea") ++ lc (r",$,$,15.0,$);")]

example : pullQuantities specChainLines (lc (r"#1")) = [] := by decide

/-- A relationship listing `#1` together with a second subject `#2`. -/
def multiSubjLines : List (List Char) :=
  [exSlabLine,
   lc (r"#300=IFCRELDEFINESBYPROPERTIES(") ++ qs (r"r1") ++ lc (r",$,$,$,(#1,#2),#200);"),
   exQsetLine, exQ9Line, exQ10Line, exQ11Line]

example : pullQuantities multiSubjLines (lc (r"#1")) = [] := by decide

/-- Element line of a non-slab type: `#1=IFCWALL('G1',$,'Beam01',$);`. -/
def exWallLine : List Char :=
  lc (r"#1=IFCWALL(") ++ qs (r"G1") ++ lc (r",$,") ++ qs (r"Beam01") ++ lc (r",$);")

/-- The same declaration as an `IFCSLAB`. -/
def exSlabBeamLine : List Char :=
  lc (r"#1=IFCSLAB(") ++ qs (r"G1") ++ lc (r",$,") ++ qs (r"Beam01") ++ lc (r",$);")

example : matchCore (lc (r"Missing")) (some (lc (r"G1"))) [exWallLine] = none := by decide

example :
    matchCore (lc (r"Missing")) (some (lc (r"G1"))) [exSlabBeamLine] = some exSlabBeamLine := by
  decide

example : matchCore (lc (r"IfcWall/Wall01")) none
    [lc (r"#2=IFCWALL(") ++ qs (r"0abc") ++ lc (r",$,") ++ qs (r"Wall01") ++ lc (r",$,$);")]
    = some (lc (r"#2=IFCWALL(") ++ qs (r"0abc") ++ lc (r",$,") ++ qs (r"Wall01") ++ lc (r",$,$);"))
    := by decide

/-- Full-index input whose second quantity token matches the numeric
character class but is not a float: `1..2`. -/
def fiAbortLines : List (List Char) :=
  [lc (r"#9=IFCQUANTITYAREA(") ++ qs (r"X") ++ lc (r",$$,1..2,);"), exSlabLine]

example : (parseIfcFI fiAbortLines fiInit).entities = [] := by decide

example : (parseIfcFI [exSlabLine] fiInit).entities
    = [(lc (r"1"), (lc (r"G1"), lc (r"Slab01")))] := by decide

/-- A source IFC path. -/
def pathA : List Char := lc (r"/models/a.ifc")

/-- Its file data: the well-formed example lines, mtime 5. -/
def sdA : FileData := ⟨exLines, 5⟩

/-- A file system holding only the source file. -/
def fsA : FileSys := [(pathA, sdA)]

/-- The file system after the cache copy. -/
def fsA2 : FileSys := fsA ++ [(getIfcTxtCachePath pathA, sdA)]

/-- A scene object named `Slab01` with one unrelated stored key `Foo`. -/
def objFoo : BObj := ⟨lc (r"Slab01"), none, none, none, [(lc (r"Foo"), Rat.divInt 1 1)]⟩

example :
    pullAll objFoo fsA (some pathA)
      = (true, msgCopied 1, { objFoo with bim := [(lc (r"NetArea"), Rat.divInt 25 2)] }, fsA2) := by
  decide

example : ensureIfcTxtCache fsA pathA = some (fsA2, getIfcTxtCachePath pathA, true) := by decide

example : ensureIfcTxtCache fsA2 pathA = some (fsA2, getIfcTxtCachePath pathA, false) := by decide

/-- A scene object named `Slab01` with an empty store. -/
def objND : BObj := ⟨lc (r"Slab01"), none, none, none, []⟩

/-- A file holding only the element declaration: no relationship
references it. -/
def fsB : FileSys := [(pathA, ⟨[exSlabLine], 5⟩)]

example :
    pullAll objND fsB (some pathA)
      = (false, msgNoQty, objND, fsB ++ [(getIfcTxtCachePath pathA, ⟨[exSlabLine], 5⟩)]) := by
  decide

/-- One quantity declaration line `#<ref>=IFCQUANTITYAREA('<nm>',$,$,<v>,$);`. -/
def tqLine (ref nm v : String) : List Char :=
  '#' :: ref.data ++ lc (r"=IFCQUANTITYAREA(") ++ qs nm ++ lc (r",$,$,") ++ v.data ++ lc (r",$);")

/-- Quantity-set line whose member tuple lists the ten quantities
`#51 .. #60` strictly between two padding refs. -/
def tqQsetLine : List Char :=
  lc (r"#200=IFCELEMENTQUANTITY(") ++ qs (r"q0") ++ lc (r",$,") ++ qs (r"BaseQ") ++
    lc (r",$,$,(#50,#51,#52,#53,#54,#55,#56,#57,#58,#59,#60,#61));")

/-- The declarations before the malformed quantity. -/
def tqPre : List (List Char) :=
  [exRelLine, tqQsetLine, tqLine (r"51") (r"N1") (r"1.0"), tqLine (r"52") (r"N2") (r"2.0"),
   tqLine (r"53") (r"N3") (r"3.0"), tqLine (r"54") (r"N4") (r"4.0")]

/-- The quantity declaration whose value token `ABC` is not numeric. -/
def tqBad : List Char := tqLine (r"55") (r"N5") (r"ABC")

/-- The declarations after the malformed quantity. -/
def tqPost : List (List Char) :=
  [tqLine (r"56") (r"N6") (r"6.0"), tqLine (r"57") (r"N7") (r"7.0"),
   tqLine (r"58") (r"N8") (r"8.0"), tqLine (r"59") (r"N9") (r"9.0"),
   tqLine (r"60") (r"N10") (r"10.0")]

/-- A file with nine well-formed quantities and one non-numeric one, all
reachable from entity `#1`. -/
def tenQtyLines : List (List Char) := tqPre ++ tqBad :: tqPost

example : (pullQuantities tenQtyLines (lc (r"#1"))).length = 9 := by decide

example : pullQuantities tenQtyLines (lc (r"#1")) = pullQuantities (tqPre ++ tqPost) (lc (r"#1"))
    := by decide

/-! ## Helper lemmas. -/

theorem foldl_fix {α β : Type} (f : β → α → β) (h : ∀ b a, f b a = b) :
    ∀ (l : List α) (b : β), l.foldl f b = b := by
  intro l
  induction l with
  | nil => intro b; rfl
  | cons x xs ih => intro b; rw [List.foldl_cons, h]; exact ih b

theorem foldl_middle_skip {α β : Type} (f : β → α → β) (x : α) (h : ∀ b, f b x = b)
    (pre post : List α) (b : β) :
    List.foldl f b (pre ++ x :: post) = List.foldl f b (pre ++ post) := by
  rw [List.foldl_append, List.foldl_append, List.foldl_cons, h]

theorem find?_map_set {α : Type} (k : List Char) (v : α) :
    ∀ m : List (List Char × α), m.any (fun p => p.1 = k) = true →
      (m.map (fun p => if p.1 = k then (k, v) else p)).find? (fun p => p.1 = k) = some (k, v) := by
  intro m
  induction m with
  | nil => intro h; simp at h
  | cons p ps ih =>
    intro h
    by_cases hp : p.1 = k
    · simp only [List.map_cons, if_pos hp, List.find?_cons]
      simp
    · simp only [List.any_cons, decide_eq_true_eq, Bool.or_eq_true] at h
      rcases h with h | h
      · exact absurd h hp
      · have hd : (decide (p.1 = k)) = false := by simp [hp]
        simp only [List.map_cons, if_neg hp, List.find?_cons, hd]
        exact ih h

theorem find?_map_set_ne {α : Type} (k : List Char) (v : α) (k' : List Char) (hne : k' ≠ k) :
    ∀ m : List (List Char × α),
      (m.map (fun p => if p.1 = k then (k, v) else p)).find? (fun p => p.1 = k')
        = m.find? (fun p => p.1 = k') := by
  intro m
  induction m with
  | nil => rfl
  | cons p ps ih =>
    by_cases hp : p.1 = k
    · have h1 : (decide (k = k')) = false := by simp; exact fun he => hne he.symm
      have h2 : (decide (p.1 = k')) = false := by rw [hp]; exact h1
      simp only [List.map_cons, if_pos hp, List.find?_cons, h1, h2]
      exact ih
    · by_cases hq : p.1 = k'
      · have h2 : (decide (p.1 = k')) = true := by simp [hq]
        simp only [List.map_cons, if_neg hp, List.find?_cons, h2]
      · have h2 : (decide (p.1 = k')) = false := by simp [hq]
        simp only [List.map_cons, if_neg hp, List.find?_cons, h2]
        exact ih

theorem dictGet_dictSet_self {α : Type} (m : List (List Char × α)) (k : List Char) (v : α) :
    dictGet (dictSet m k v) k = some v := by
  unfold dictSet dictGet
  by_cases h : m.any (fun p => p.1 = k)
  · rw [if_pos h, find?_map_set k v m h]; rfl
  · rw [if_neg h, List.find?_append]
    have h1 : m.find? (fun p => decide (p.1 = k)) = none := by
      rw [List.find?_eq_none]
      intro x hx hpx
      exact h (List.any_eq_true.mpr ⟨x, hx, hpx⟩)
    simp [h1]

theorem dictGet_dictSet_ne {α : Type} (m : List (List Char × α)) (k : List Char) (v : α)
    (k' : List Char) (hne : k' ≠ k) : dictGet (dictSet m k v) k' = dictGet m k' := by
  unfold dictSet dictGet
  by_cases h : m.any (fun p => p.1 = k)
  · rw [if_pos h, find?_map_set_ne k v k' hne m]
  · rw [if_neg h, List.find?_append]
    have h1 : [(k, v)].find? (fun p => decide (p.1 = k')) = none := by
      rw [List.find?_eq_none]
      intro x hx hpx
      simp at hx
      rw [hx] at hpx
      simp at hpx
      exact hne hpx.symm
    rw [h1, Option.or_none]

theorem takeWhile_all {α : Type} {p : α → Bool} :
    ∀ l : List α, (∀ c ∈ l, p c = true) → l.takeWhile p = l := by
  intro l
  induction l with
  | nil => intro; rfl
  | cons c cs ih =>
    intro h
    rw [List.takeWhile_cons_of_pos (h c (List.mem_cons_self c cs)),
      ih (fun x hx => h x (List.mem_cons_of_mem c hx))]

theorem afterLastC_append (sep : Char) (pre n : List Char) (h : sep ∉ n) :
    afterLastC sep (pre ++ sep :: n) = n := by
  unfold afterLastC
  have h1 : (pre ++ sep :: n).reverse = n.reverse ++ sep :: pre.reverse := by simp
  rw [h1, List.takeWhile_append_of_pos ?pos, List.takeWhile_cons_of_neg (by simp)]
  · simp
  case pos =>
    intro a ha
    rw [List.mem_reverse] at ha
    simp only [decide_eq_true_eq]
    intro he
    exact h (he ▸ ha)

theorem afterLastC_of_not_mem (sep : Char) (l : List Char) (h : sep ∉ l) :
    afterLastC sep l = l := by
  unfold afterLastC
  rw [takeWhile_all l.reverse ?pos, List.reverse_reverse]
  case pos =>
    intro a ha
    rw [List.mem_reverse] at ha
    simp only [decide_eq_true_eq]
    intro he
    exact h (he ▸ ha)

theorem not_mem_afterLastC (sep : Char) (l : List Char) : sep ∉ afterLastC sep l := by
  unfold afterLastC
  intro hmem
  rw [List.mem_reverse] at hmem
  have := List.mem_takeWhile_imp hmem
  simp at this

theorem consume_append (pat r : List Char) : consume pat (pat ++ r) = some r := by
  unfold consume
  rw [if_pos ((List.isPrefixOf_iff_prefix).mpr (List.prefix_append pat r)), List.drop_left]

theorem relStep_skip (eref l : List Char)
    (h : containsSub (lc (r"IFCRELDEFINESBYPROPERTIES")) l = false) :
    ∀ acc, relStep eref acc l = acc := by
  intro acc
  simp [relStep, h]

theorem qsetStep_skip (rels : List (List Char)) (l : List Char)
    (h1 : containsSub (lc (r"IFCELEMENTQUANTITY")) l = false)
    (h2 : containsSub (lc (r"IFCPROPERTYSET")) l = false) :
    ∀ acc, qsetStep rels acc l = acc := by
  intro acc
  simp [qsetStep, h1, h2]

theorem qsetStep_nil (acc : List (List Char × List (List Char))) (l : List Char) :
    qsetStep [] acc l = acc := by
  simp [qsetStep]

theorem qtyStep_nil (m : QMap) (l : List Char) : qtyStep [] m l = m := by
  simp [qtyStep]

theorem qtyStep_skip (allq : List (List Char)) (l : List Char)
    (h : (l.splitOn ',').length ≤ 3 ∨ parsePyFloat (cleanTok ((l.splitOn ',').getD 3 [])) = none) :
    ∀ m, qtyStep allq m l = m := by
  intro m
  simp only [qtyStep]
  repeat' split
  all_goals try rfl
  all_goals exfalso
  all_goals rcases h with h | h
  all_goals try omega
  all_goals simp_all

theorem qsetPass_nil (lines : List (List Char)) : qsetPass lines [] = [] :=
  foldl_fix (qsetStep []) (fun b a => qsetStep_nil b a) lines []

theorem qtyPass_nil (lines : List (List Char)) : qtyPass lines [] = [] :=
  foldl_fix (qtyStep []) (fun b a => qtyStep_nil b a) lines []

theorem pullQuantities_of_no_rel (lines : List (List Char)) (eref : List Char)
    (h : relPass lines eref = []) : pullQuantities lines eref = [] := by
  calc pullQuantities lines eref
      = qtyPass lines ((qsetPass lines (relPass lines eref)).map Prod.snd).flatten := rfl
    _ = qtyPass lines ((qsetPass lines ([] : List (List Char))).map Prod.snd).flatten := by
        rw [h]
    _ = qtyPass lines (([] : List (List Char × List (List Char))).map Prod.snd).flatten := by
        rw [qsetPass_nil]
    _ = qtyPass lines [] := rfl
    _ = [] := qtyPass_nil lines

theorem pullCore_ok_nonempty (nm : List Char) (g : Option (List Char)) (fs : FileSys)
    (ifcPath : Option (List Char)) (m : List Char) (q : QMap) (f1 : FileSys)
    (h : pullCore nm g fs ifcPath = .ok (m, q, f1)) : q ≠ [] := by
  simp only [pullCore] at h
  repeat' split at h
  all_goals try exact Except.noConfusion h
  next hne =>
    injection h with h2
    simp only [Prod.mk.injEq] at h2
    obtain ⟨-, h4, -⟩ := h2
    intro hnil
    rw [hnil] at h4
    apply hne
    rw [h4]
    rfl

/-- Additional data for the name-normalization claim: a wall element with
label `Wall01`. -/
def wall01Line : List Char :=
  lc (r"#2=IFCWALL(") ++ qs (r"0abc") ++ lc (r",$,") ++ qs (r"Wall01") ++ lc (r",$,$);")

/-! ## Claim theorems. -/

/-- Claim C1, counterexample: a successful pull does not preserve keys of
the store absent from the new mapping.  The object holds the unrelated
key `Foo` before the pull; the pull succeeds, and afterwards `Foo` is
gone. -/
theorem pull_merge_policy_counterexample :
    (pullAll objFoo fsA (some pathA)).1 = true
    ∧ dictGet objFoo.bim (lc (r"Foo")) = some (Rat.divInt 1 1)
    ∧ dictGet (pullAll objFoo fsA (some pathA)).2.2.1.bim (lc (r"Foo")) = none := by
  decide

/-- Claim C1 as amended: on a successful pull, the resolved quantity
mapping replaces the object's property store wholesale — the outcome
(success flag, message, resulting object, file system) is the same for
every prior content of the store, so keys present in the new mapping are
overwritten and keys absent from it are removed, not preserved. -/
theorem pull_success_replaces_store (o : BObj) (fs : FileSys) (p : Option (List Char))
    (m : List Char) (o2 : BObj) (fs2 : FileSys) (b : QMap)
    (h : pullAll o fs p = (true, m, o2, fs2)) :
    pullAll { o with bim := b } fs p = (true, m, o2, fs2) := by
  have key : pullCore ({ o with bim := b } : BObj).name (getGuid { o with bim := b }) fs p
      = pullCore o.name (getGuid o) fs p := rfl
  simp only [pullAll] at h ⊢
  rw [key]
  cases e : pullCore o.name (getGuid o) fs p with
  | error pr =>
    rw [e] at h
    exact Bool.noConfusion (congrArg Prod.fst h)
  | ok tr =>
    obtain ⟨m1, q1, f1⟩ := tr
    rw [e] at h
    exact h

/-- Witness for the amended C1 theorem at a concrete successful pull. -/
theorem pull_success_replaces_store_witness :
    pullAll objFoo fsA (some pathA)
      = (true, msgCopied 1, { objFoo with bim := [(lc (r"NetArea"), Rat.divInt 25 2)] }, fsA2)
    ∧ pullAll { objFoo with bim := [] } fsA (some pathA)
      = (true, msgCopied 1, { objFoo with bim := [(lc (r"NetArea"), Rat.divInt 25 2)] }, fsA2) :=
  ⟨by decide,
   pull_success_replaces_store objFoo fsA (some pathA) (msgCopied 1)
     { objFoo with bim := [(lc (r"NetArea"), Rat.divInt 25 2)] } fsA2 [] (by decide)⟩

/-- Claim C2, divergence of the code from the specified resolution
algorithm: on the spec's own resolution-chain example (one relationship
with `#1` as sole subject, target set with exactly the members `NetArea
= 12.5` and `GrossArea = 15.0`) the streaming resolution returns the
empty mapping, and a relationship listing `#1` together with another
subject is skipped entirely; in a three-member set only the middle
member survives, the first and last being lost to the raw comma-split. -/
theorem resolution_chain_divergence :
    pullQuantities specChainLines (lc (r"#1")) = []
    ∧ pullQuantities multiSubjLines (lc (r"#1")) = []
    ∧ dictGet (pullQuantities exLines (lc (r"#1"))) (lc (r"NetArea")) = some (Rat.divInt 25 2)
    ∧ dictGet (pullQuantities exLines (lc (r"#1"))) (lc (r"GrossArea")) = none
    ∧ dictGet (pullQuantities exLines (lc (r"#1"))) (lc (r"NetVolume")) = none := by
  decide

/-- Claim C3, divergence between the two parsing modes on the same file
and target: targeted streaming resolves `NetArea = 12.5` for entity
`#1`, while the full-index mode resolves nothing — it does build the
GlobalId and relationship maps, but stores the bare digit id `200` as
the relationship target, on which the `#`-ref scan of `get_bim_value`
finds no refs. -/
theorem mode_equivalence_divergence :
    dictGet (pullQuantities exLines (lc (r"#1"))) (lc (r"NetArea")) = some (Rat.divInt 25 2)
    ∧ fiGetValue exLines (lc (r"G1")) (lc (r"netarea")) = none
    ∧ dictGet (parseIfcFI exLines fiInit).gidIdx (lc (r"G1")) = some (lc (r"1"))
    ∧ dictGet (parseIfcFI exLines fiInit).relsIdx (lc (r"1")) = some (lc (r"200"))
    ∧ findRefNums (lc (r"200")) = [] := by
  decide

/-- Claim C6, counterexample for the full-index parser: a quantity whose
value token `1..2` matches the numeric character class but fails `float`
aborts the parse, so the following well-formed element declaration is
dropped from the result instead of being processed. -/
theorem malformed_full_index_abort :
    qtyMatchFI (lc (r"#9=IFCQUANTITYAREA(") ++ qs (r"X") ++ lc (r",$$,1..2,);"))
      = some (lc (r"9"), lc (r"AREA"), lc (r"X"), lc (r"1..2"))
    ∧ parsePyFloat (lc (r"1..2")) = none
    ∧ (parseIfcFI fiAbortLines fiInit).entities = []
    ∧ (parseIfcFI [exSlabLine] fiInit).entities = [(lc (r"1"), (lc (r"G1"), lc (r"Slab01")))] := by
  decide

/-- Claim C6 as amended, for the streaming pull: a quantity line whose
cleaned value token fails to parse is dropped alone — removing it from
the file leaves the resolved mapping unchanged — and the concrete file
with nine well-formed quantities and one non-numeric one yields exactly
nine entries. -/
theorem malformed_quantity_dropped_alone :
    (∀ (pre post : List (List Char)) (l eref : List Char),
      containsSub (lc (r"IFCRELDEFINESBYPROPERTIES")) l = false →
      containsSub (lc (r"IFCELEMENTQUANTITY")) l = false →
      containsSub (lc (r"IFCPROPERTYSET")) l = false →
      ((l.splitOn ',').length ≤ 3 ∨ parsePyFloat (cleanTok ((l.splitOn ',').getD 3 [])) = none) →
      pullQuantities (pre ++ l :: post) eref = pullQuantities (pre ++ post) eref)
    ∧ (pullQuantities tenQtyLines (lc (r"#1"))).length = 9 := by
  constructor
  · intro pre post l eref h1 h2 h3 h4
    have hr : relPass (pre ++ l :: post) eref = relPass (pre ++ post) eref :=
      foldl_middle_skip (relStep eref) l (fun b => relStep_skip eref l h1 b) pre post []
    have hq : ∀ rels, qsetPass (pre ++ l :: post) rels = qsetPass (pre ++ post) rels :=
      fun rels =>
        foldl_middle_skip (qsetStep rels) l (fun b => qsetStep_skip rels l h2 h3 b) pre post []
    have ht : ∀ allq, qtyPass (pre ++ l :: post) allq = qtyPass (pre ++ post) allq :=
      fun allq =>
        foldl_middle_skip (qtyStep allq) l (fun b => qtyStep_skip allq l h4 b) pre post []
    calc pullQuantities (pre ++ l :: post) eref
        = qtyPass (pre ++ l :: post)
            ((qsetPass (pre ++ l :: post) (relPass (pre ++ l :: post) eref)).map
              Prod.snd).flatten := rfl
      _ = qtyPass (pre ++ post)
            ((qsetPass (pre ++ post) (relPass (pre ++ post) eref)).map Prod.snd).flatten := by
          rw [hr, hq, ht]
      _ = pullQuantities (pre ++ post) eref := rfl
  · decide

/-- Witness for the amended C6 theorem: the malformed line of the
concrete ten-quantity file satisfies the hypotheses, and dropping it
leaves the mapping unchanged. -/
theorem malformed_quantity_dropped_alone_witness :
    (containsSub (lc (r"IFCRELDEFINESBYPROPERTIES")) tqBad = false
      ∧ containsSub (lc (r"IFCELEMENTQUANTITY")) tqBad = false
      ∧ containsSub (lc (r"IFCPROPERTYSET")) tqBad = false
      ∧ parsePyFloat (cleanTok ((tqBad.splitOn ',').getD 3 [])) = none)
    ∧ pullQuantities (tqPre ++ tqBad :: tqPost) (lc (r"#1"))
        = pullQuantities (tqPre ++ tqPost) (lc (r"#1")) :=
  ⟨by decide,
   malformed_quantity_dropped_alone.1 tqPre tqPost tqBad (lc (r"#1")) (by decide) (by decide)
     (by decide) (Or.inr (by decide))⟩

/-- Claim C7: when the relationship pass matches nothing the resolved
mapping is empty; a successful pull never carries an empty store; and on
a concrete file with no relationship referencing the matched entity, the
pull fails with the `no quantities` message, leaving the object
untouched. -/
theorem no_quantities_is_failure :
    (∀ (lines : List (List Char)) (eref : List Char),
      relPass lines eref = [] → pullQuantities lines eref = [])
    ∧ (∀ (o : BObj) (fs : FileSys) (p : Option (List Char)) (m : List Char) (o2 : BObj)
        (fs2 : FileSys), pullAll o fs p = (true, m, o2, fs2) → o2.bim ≠ [])
    ∧ pullAll objND fsB (some pathA)
        = (false, msgNoQty, objND, fsB ++ [(getIfcTxtCachePath pathA, ⟨[exSlabLine], 5⟩)]) := by
  refine ⟨pullQuantities_of_no_rel, ?_, by decide⟩
  intro o fs p m o2 fs2 h
  simp only [pullAll] at h
  cases e : pullCore o.name (getGuid o) fs p with
  | error pr =>
    rw [e] at h
    exact Bool.noConfusion (congrArg Prod.fst h)
  | ok tr =>
    obtain ⟨m1, q1, f1⟩ := tr
    rw [e] at h
    have hq : q1 ≠ [] := pullCore_ok_nonempty _ _ _ _ _ _ _ e
    have ho : o2 = { o with bim := q1 } := (congrArg (fun t => t.2.2.1) h).symm
    rw [ho]
    exact hq

/-- Witness for the C7 theorem: the no-relationship file and the
successful pull instantiate its two quantified parts. -/
theorem no_quantities_is_failure_witness :
    (relPass [exSlabLine] (lc (r"#1")) = [] ∧ pullQuantities [exSlabLine] (lc (r"#1")) = [])
    ∧ (pullAll objFoo fsA (some pathA)
        = (true, msgCopied 1, { objFoo with bim := [(lc (r"NetArea"), Rat.divInt 25 2)] }, fsA2)
      ∧ ({ objFoo with bim := [(lc (r"NetArea"), Rat.divInt 25 2)] } : BObj).bim ≠ []) :=
  ⟨⟨by decide, no_quantities_is_failure.1 [exSlabLine] (lc (r"#1")) (by decide)⟩,
   ⟨by decide,
    no_quantities_is_failure.2.1 objFoo fsA (some pathA) (msgCopied 1)
      { objFoo with bim := [(lc (r"NetArea"), Rat.divInt 25 2)] } fsA2 (by decide)⟩⟩

/-- Claim C10: whenever the per-object pull returns a failure, the
object is returned completely unchanged — the store is written only on
the success path. -/
theorem pull_failure_object_untouched (o : BObj) (fs : FileSys) (p : Option (List Char))
    (ok : Bool) (m : List Char) (o2 : BObj) (fs2 : FileSys)
    (h : pullAll o fs p = (ok, m, o2, fs2)) (hok : ok = false) : o2 = o := by
  simp only [pullAll] at h
  cases e : pullCore o.name (getGuid o) fs p with
  | error pr =>
    rw [e] at h
    exact (congrArg (fun t => t.2.2.1) h).symm
  | ok tr =>
    obtain ⟨m1, q1, f1⟩ := tr
    rw [e] at h
    subst hok
    exact Bool.noConfusion (congrArg Prod.fst h)

/-- Witness for the C10 theorem at a concrete failing pull (no file
path given). -/
theorem pull_failure_object_untouched_witness :
    pullAll objFoo fsA none = (false, msgNoFile, objFoo, fsA)
    ∧ (pullAll objFoo fsA none).2.2.1 = objFoo :=
  ⟨by decide,
   pull_failure_object_untouched objFoo fsA none _ _ _ _ rfl (by decide)⟩

/-- Claim C4, counterexample: the identifier strategy only searches
`IFCSLAB` declarations.  A wall declaration carrying identifier `G1` is
a recognized element declaration (its label matches by name), yet the
descriptor `{displayName: Missing, identifier: G1}` finds no match; the
same declaration as a slab is found. -/
theorem guid_strategy_counterexample :
    matchCore (lc (r"Missing")) (some (lc (r"G1"))) [exWallLine] = none
    ∧ matchCore (lc (r"Beam01")) none [exWallLine] = some exWallLine
    ∧ matchCore (lc (r"Missing")) (some (lc (r"G1"))) [exSlabBeamLine] = some exSlabBeamLine := by
  decide

/-- Claim C4 as amended: when the name strategy finds nothing and an
identifier is present, the fallback finds a match whenever some line
declares an `IFCSLAB` (and only a slab) with exactly that identifier;
and a descriptor with no identifier whose name finds nothing returns no
match. -/
theorem guid_fallback_slab_only :
    (∀ (lines : List (List Char)) (pre g lbl post : List Char),
      (pre ++ (guidPat g ++ (lbl ++ quoteC :: post))) ∈ lines → lbl ≠ [] →
      (∀ c ∈ lbl, c ≠ quoteC) → (findLineByGuid lines g).isSome = true)
    ∧ (∀ (nm : List Char) (lines : List (List Char)),
        findLineByName lines (afterLastC '/' nm) = none → matchCore nm none lines = none) := by
  constructor
  · intro lines pre g lbl post hmem hlbl hq
    have hhit : guidHit g (pre ++ (guidPat g ++ (lbl ++ quoteC :: post))) = true := by
      unfold guidHit
      rw [List.any_eq_true]
      refine ⟨guidPat g ++ (lbl ++ quoteC :: post), ?_, ?_⟩
      · rw [List.mem_tails]
        exact List.suffix_append _ _
      · unfold guidHitAt
        rw [consume_append (guidPat g) (lbl ++ quoteC :: post)]
        have htake : (lbl ++ quoteC :: post).takeWhile (fun c => c ≠ quoteC) = lbl := by
          rw [List.takeWhile_append_of_pos ?all, List.takeWhile_cons_of_neg (by simp),
            List.append_nil]
          case all =>
            intro a ha
            simp only [decide_eq_true_eq]
            exact hq a ha
        show (!((lbl ++ quoteC :: post).takeWhile (fun c => c ≠ quoteC)).isEmpty
            && decide ((((lbl ++ quoteC :: post).drop
              ((lbl ++ quoteC :: post).takeWhile (fun c => c ≠ quoteC)).length)).head?
                = some quoteC)) = true
        rw [htake, List.drop_left]
        simp [hlbl]
    exact List.find?_isSome.mpr ⟨_, hmem, hhit⟩
  · intro nm lines hfind
    by_cases he : nm.isEmpty = true
    · simp [matchCore, he]
    · by_cases he2 : (afterLastC '/' nm).isEmpty = true
      · simp [matchCore, he, he2]
      · simp [matchCore, he, he2, hfind]

/-- Witness for the amended C4 theorem: the slab-with-GUID line and the
unmatched wall descriptor instantiate its two parts. -/
theorem guid_fallback_slab_only_witness :
    lc (r"#1=") ++ (guidPat (lc (r"G1")) ++ (lc (r"Beam01") ++ quoteC :: lc (r",$);")))
        ∈ [exSlabBeamLine]
    ∧ (findLineByGuid [exSlabBeamLine] (lc (r"G1"))).isSome = true
    ∧ findLineByName [exWallLine] (afterLastC '/' (lc (r"Missing"))) = none
    ∧ matchCore (lc (r"Missing")) none [exWallLine] = none :=
  ⟨by decide,
   guid_fallback_slab_only.1 [exSlabBeamLine] (lc (r"#1=")) (lc (r"G1")) (lc (r"Beam01"))
     (lc (r",$);")) (by decide) (by decide) (by decide),
   by decide,
   guid_fallback_slab_only.2 (lc (r"Missing")) [exWallLine] (by decide)⟩

/-- Claim C5: under the cache invariant (a cache file at least as new as
the source holds the source's bytes), `ensure_ifc_txt_cache` returns the
derived cache path; afterwards the cache file exists with the source's
content; the copy happens exactly when the cache is absent or strictly
older than the source; no copy returns the file system unchanged; and an
immediate second call performs no copy. -/
theorem cache_freshness (fs : FileSys) (p : List Char) (sd : FileData)
    (hsrc : dictGet fs p = some sd)
    (hinv : ∀ cd, dictGet fs (getIfcTxtCachePath p) = some cd → sd.mtime ≤ cd.mtime →
      cd.content = sd.content) :
    ∃ fs1 copied, ensureIfcTxtCache fs p = some (fs1, getIfcTxtCachePath p, copied)
      ∧ (∃ cd, dictGet fs1 (getIfcTxtCachePath p) = some cd ∧ cd.content = sd.content)
      ∧ (copied = true ↔ dictGet fs (getIfcTxtCachePath p) = none
          ∨ ∃ cd, dictGet fs (getIfcTxtCachePath p) = some cd ∧ cd.mtime < sd.mtime)
      ∧ (copied = false → fs1 = fs)
      ∧ ensureIfcTxtCache fs1 p = some (fs1, getIfcTxtCachePath p, false) := by
  have hset1 : dictGet (dictSet fs (getIfcTxtCachePath p) sd) (getIfcTxtCachePath p) = some sd :=
    dictGet_dictSet_self fs (getIfcTxtCachePath p) sd
  have hsetp : dictGet (dictSet fs (getIfcTxtCachePath p) sd) p = some sd := by
    by_cases hpe : p = getIfcTxtCachePath p
    · nth_rewrite 2 [hpe]
      exact hset1
    · rw [dictGet_dictSet_ne fs (getIfcTxtCachePath p) sd p hpe]
      exact hsrc
  have hagain : ensureIfcTxtCache (dictSet fs (getIfcTxtCachePath p) sd) p
      = some (dictSet fs (getIfcTxtCachePath p) sd, getIfcTxtCachePath p, false) := by
    simp only [ensureIfcTxtCache, hsetp, hset1]
    rw [if_neg (lt_irrefl sd.mtime)]
  cases hc : dictGet fs (getIfcTxtCachePath p) with
  | none =>
    have e1 : ensureIfcTxtCache fs p
        = some (dictSet fs (getIfcTxtCachePath p) sd, getIfcTxtCachePath p, true) := by
      simp only [ensureIfcTxtCache, hsrc, hc]
    refine ⟨_, true, e1, ⟨sd, hset1, rfl⟩, ⟨fun _ => Or.inl rfl, fun _ => rfl⟩, ?_, hagain⟩
    intro hf
    exact Bool.noConfusion hf
  | some cd =>
    by_cases hm : cd.mtime < sd.mtime
    · have e1 : ensureIfcTxtCache fs p
          = some (dictSet fs (getIfcTxtCachePath p) sd, getIfcTxtCachePath p, true) := by
        simp only [ensureIfcTxtCache, hsrc, hc]
        rw [if_pos hm]
      refine ⟨_, true, e1, ⟨sd, hset1, rfl⟩,
        ⟨fun _ => Or.inr ⟨cd, rfl, hm⟩, fun _ => rfl⟩, ?_, hagain⟩
      intro hf
      exact Bool.noConfusion hf
    · have e1 : ensureIfcTxtCache fs p = some (fs, getIfcTxtCachePath p, false) := by
        simp only [ensureIfcTxtCache, hsrc, hc]
        rw [if_neg hm]
      refine ⟨fs, false, e1, ⟨cd, hc, hinv cd hc (Nat.le_of_not_lt hm)⟩, ?_, fun _ => rfl, e1⟩
      constructor
      · intro hf
        exact Bool.noConfusion hf
      · rintro (hn | ⟨cd2, hcd2, hlt⟩)
        · exact Option.noConfusion hn
        · injection hcd2 with he
          rw [← he] at hlt
          exact absurd hlt hm

/-- Witness for the C5 theorem on a concrete file system where the
cache is absent. -/
theorem cache_freshness_witness :
    dictGet fsA pathA = some sdA
    ∧ (∃ fs1 copied, ensureIfcTxtCache fsA pathA = some (fs1, getIfcTxtCachePath pathA, copied)
      ∧ (∃ cd, dictGet fs1 (getIfcTxtCachePath pathA) = some cd ∧ cd.content = sdA.content)
      ∧ (copied = true ↔ dictGet fsA (getIfcTxtCachePath pathA) = none
          ∨ ∃ cd, dictGet fsA (getIfcTxtCachePath pathA) = some cd ∧ cd.mtime < sdA.mtime)
      ∧ (copied = false → fs1 = fsA)
      ∧ ensureIfcTxtCache fs1 pathA = some (fs1, getIfcTxtCachePath pathA, false)) :=
  ⟨by decide,
   cache_freshness fsA pathA sdA (by decide) (fun cd h _ => Option.noConfusion h)⟩

/-- Claim C8, counterexample: two distinct source paths sharing a base
name map to the same cache file. -/
theorem cache_path_collision :
    getIfcTxtCachePath (lc (r"/a/foo.ifc")) = getIfcTxtCachePath (lc (r"/b/foo.ifc"))
    ∧ lc (r"/a/foo.ifc") ≠ lc (r"/b/foo.ifc") := by
  decide

/-- Claim C8 as amended: the cache path is the fixed cache directory
plus the source base name with its extension replaced by `.txt`, so it
depends only on the base name — distinct sources get distinct cache
files exactly when their basename stems differ. -/
theorem cache_path_derivation :
    (∀ p : List Char, getIfcTxtCachePath p = getIfcTxtCachePath (basenameP p))
    ∧ (∀ p q : List Char, stemOf (basenameP p) ≠ stemOf (basenameP q) →
        getIfcTxtCachePath p ≠ getIfcTxtCachePath q) := by
  constructor
  · intro p
    have hb : basenameP (basenameP p) = basenameP p :=
      afterLastC_of_not_mem '/' (basenameP p) (not_mem_afterLastC '/' p)
    unfold getIfcTxtCachePath
    rw [hb]
  · intro p q hne heq
    apply hne
    unfold getIfcTxtCachePath at heq
    exact List.append_cancel_left (List.append_cancel_right heq)

/-- Witness for the amended C8 theorem at two sources with distinct
stems. -/
theorem cache_path_derivation_witness :
    stemOf (basenameP (lc (r"/a/foo.ifc"))) ≠ stemOf (basenameP (lc (r"/b/bar.ifc")))
    ∧ getIfcTxtCachePath (lc (r"/a/foo.ifc")) ≠ getIfcTxtCachePath (lc (r"/b/bar.ifc")) :=
  ⟨by decide, cache_path_derivation.2 (lc (r"/a/foo.ifc")) (lc (r"/b/bar.ifc")) (by decide)⟩

/-- Claim C9: the name used for matching is the segment of the display
name after the last `/`, so any prefix before the separator is
irrelevant, and `IfcWall/Wall01` matches the element labelled
`Wall01`. -/
theorem name_normalization :
    (∀ (lines : List (List Char)) (pre n : List Char), '/' ∉ n →
      findLineByName lines (pre ++ '/' :: n) = findLineByName lines n)
    ∧ matchCore (lc (r"IfcWall/Wall01")) none [wall01Line] = some wall01Line := by
  constructor
  · intro lines pre n h
    have h1 : normName (pre ++ '/' :: n) = n := by
      unfold normName
      rw [if_pos ?mem]
      · exact afterLastC_append '/' pre n h
      case mem => simp
    have h2 : normName n = n := by
      unfold normName
      rw [if_neg ?notmem]
      case notmem => simpa using h
    unfold findLineByName
    rw [h1, h2]
  · decide

/-- Witness for the C9 theorem: the concrete wall file and the
slash-free suffix `Wall01`. -/
theorem name_normalization_witness :
    ('/' ∉ lc (r"Wall01"))
    ∧ findLineByName [wall01Line] (lc (r"IfcWall") ++ '/' :: lc (r"Wall01"))
        = findLineByName [wall01Line] (lc (r"Wall01")) :=
  ⟨by decide, name_normalization.1 [wall01Line] (lc (r"IfcWall")) (lc (r"Wall01")) (by decide)⟩

end IfcQSelect
